import Mathlib

/-!
Shallow embedding of the wallet ledger core of the virtual-betting
repository (`apps/wallet/models.py`): the `Wallet` and `Transaction`
rows, the `Wallet.deduct` / `Wallet.credit` mutations, and the
`WalletManager` service wrappers (`create_wallet_for_user`,
`process_bet_placement`, `process_bet_winning`), together with the
COMPLETED-filtered aggregates `get_total_deposited` /
`get_total_withdrawn`.

Monetary values are `DecimalField(max_digits=10, decimal_places=2)` in the
source; with two fixed decimal places and only addition, subtraction and
comparison applied to them, they embed exactly as integers counted in
cents (so `1000.00` is the integer `100000`).
-/

namespace VBet

/-- `Transaction.TRANSACTION_TYPES`: the `credit` / `debit` choices of the
`transaction_type` column. -/
inductive TransactionType
  | credit
  | debit
deriving DecidableEq, Repr

/-- `Transaction.STATUS_CHOICES`: the four `status` choices; the column
default is `COMPLETED`. -/
inductive TransactionStatus
  | pending
  | completed
  | failed
  | cancelled
deriving DecidableEq, Repr

/-- One row of the `transactions` table (the fields the ledger logic
reads or writes; `reference_id` and `created_at` are never consulted by
the core, creation order is kept positionally in the owning wallet's
row list). -/
structure Transaction where
  transaction_type : TransactionType
  amount : Int
  balance_after : Int
  description : String
  status : TransactionStatus
deriving DecidableEq, Repr

/-- One row of the `wallets` table.  `txs` is the wallet's
`transactions` related set, listed in creation order (oldest first);
Django stores it in a separate table keyed by `wallet_id`, which for a
single wallet is the same data. -/
structure Wallet where
  id : Nat
  user : Nat
  balance : Int
  currency : String := "USD"
  is_active : Bool := true
  txs : List Transaction := []
deriving DecidableEq, Repr

/-- `Wallet.has_sufficient_balance`: `self.balance >= Decimal(str(amount))`. -/
def Wallet.has_sufficient_balance (w : Wallet) (amount : Int) : Bool :=
  w.balance ≥ amount

/-- `Wallet.deduct(amount, description)`: raises `ValueError` (embedded as
`Except.error` carrying the message) when the sufficiency check fails,
otherwise decrements `balance` by `amount`, inserts one DEBIT transaction
with the default COMPLETED status and `balance_after` equal to the
refreshed balance, and returns it alongside the updated row. -/
def Wallet.deduct (w : Wallet) (amount : Int) (description : String) :
    Except String (Wallet × Transaction) :=
  if ¬ w.has_sufficient_balance amount then
    .error ("Insufficient balance. Available: " ++ toString w.balance ++
      ", Required: " ++ toString amount)
  else
    let newBalance := w.balance - amount
    let t : Transaction :=
      { transaction_type := .debit
        amount := amount
        balance_after := newBalance
        description := if description = "" then "Bet placed" else description
        status := .completed }
    .ok ({ w with balance := newBalance, txs := w.txs ++ [t] }, t)

/-- `Wallet.credit(amount, description)`: unconditionally increments
`balance` by `amount`, inserts one CREDIT transaction with the default
COMPLETED status and `balance_after` equal to the refreshed balance, and
returns it alongside the updated row. -/
def Wallet.credit (w : Wallet) (amount : Int) (description : String) :
    Wallet × Transaction :=
  let newBalance := w.balance + amount
  let t : Transaction :=
    { transaction_type := .credit
      amount := amount
      balance_after := newBalance
      description := if description = "" then "Amount credited" else description
      status := .completed }
  ({ w with balance := newBalance, txs := w.txs ++ [t] }, t)

/-- `Wallet.get_total_deposited`: sum of `amount` over the wallet's
transactions filtered to `transaction_type=CREDIT, status=COMPLETED`
(`Sum` of no rows is `None`, coalesced to `0.00`). -/
def Wallet.get_total_deposited (w : Wallet) : Int :=
  ((w.txs.filter fun t =>
    t.transaction_type == .credit && t.status == .completed).map
      Transaction.amount).sum

/-- `Wallet.get_total_withdrawn`: sum of `amount` over the wallet's
transactions filtered to `transaction_type=DEBIT, status=COMPLETED`. -/
def Wallet.get_total_withdrawn (w : Wallet) : Int :=
  ((w.txs.filter fun t =>
    t.transaction_type == .debit && t.status == .completed).map
      Transaction.amount).sum

/-- The `wallets` table plus the auto-increment id counter.  Each user
(`OneToOneField`) has at most one wallet row; `create_wallet_for_user`
is the only creation path modelled. -/
structure Store where
  wallets : List Wallet := []
  next_id : Nat := 1
deriving DecidableEq, Repr

/-- `Wallet.objects.get(user=user)` / the lookup half of
`get_or_create`: the wallet row of `user`, if any. -/
def Store.getWallet (s : Store) (user : Nat) : Option Wallet :=
  s.wallets.find? fun w => w.user == user

/-- Write back an updated wallet row (same id) into the table. -/
def Store.putWallet (s : Store) (w : Wallet) : Store :=
  { s with wallets := s.wallets.map fun w0 => if w0.id == w.id then w else w0 }

/-- `WalletManager.create_wallet_for_user(user, initial_balance=1000.00)`:
`get_or_create` keyed on `user` with `defaults={'balance': initial_balance}`;
when a row is created, one CREDIT transaction of the opening amount with
`balance_after = wallet.balance` and description `"Initial deposit"` is
inserted.  Returns `(store, wallet, created)`. -/
def WalletManager.create_wallet_for_user (s : Store) (user : Nat)
    (initial_balance : Int) : Store × Wallet × Bool :=
  match s.getWallet user with
  | some w => (s, w, false)
  | none =>
    let w0 : Wallet := { id := s.next_id, user := user, balance := initial_balance }
    let t : Transaction :=
      { transaction_type := .credit
        amount := initial_balance
        balance_after := w0.balance
        description := "Initial deposit"
        status := .completed }
    let w1 := { w0 with txs := w0.txs ++ [t] }
    ({ s with wallets := s.wallets ++ [w1], next_id := s.next_id + 1 }, w1, true)

/-- `WalletManager.process_bet_placement(user, bet_amount)` acting on the
wallet row it fetched with `select_for_update().get(user=user)` (the
lookup-failure branch returning `"Wallet not found"` is handled by the
store-level wrapper below).  Returns the updated row together with the
uniform `(success, message, transaction)` triple; the `except Exception`
clause that converts a `ValueError` from `deduct` into a failure triple is
the `Except.error` match arm. -/
def WalletManager.process_bet_placement (w : Wallet) (bet_amount : Int) :
    Wallet × Bool × String × Option Transaction :=
  if ¬ w.is_active then
    (w, false, "Wallet is not active", none)
  else if ¬ w.has_sufficient_balance bet_amount then
    (w, false, "Insufficient balance. Available: " ++ toString w.balance, none)
  else
    match w.deduct bet_amount ("Bet placed - " ++ toString bet_amount) with
    | .ok (w', t) => (w', true, "Bet placed successfully", some t)
    | .error e => (w, false, e, none)

/-- `WalletManager.process_bet_winning(user, winning_amount, bet_id=None)`
acting on the fetched wallet row.  `if bet_id:` is Python truthiness:
`None` and `0` both leave the description untagged. -/
def WalletManager.process_bet_winning (w : Wallet) (winning_amount : Int)
    (bet_id : Option Nat) : Wallet × Bool × String × Option Transaction :=
  if ¬ w.is_active then
    (w, false, "Wallet is not active", none)
  else
    let description :=
      match bet_id with
      | some b =>
        if b ≠ 0 then
          "Bet winning - " ++ toString winning_amount ++ " (Bet #" ++ toString b ++ ")"
        else
          "Bet winning - " ++ toString winning_amount
      | none => "Bet winning - " ++ toString winning_amount
    let (w', t) := w.credit winning_amount description
    (w', true, "Winnings credited successfully", some t)

/-- Store-level `process_bet_placement`: the `Wallet.DoesNotExist` branch
returns `"Wallet not found"` with the table untouched. -/
def WalletManager.process_bet_placement_store (s : Store) (user : Nat)
    (bet_amount : Int) : Store × Bool × String × Option Transaction :=
  match s.getWallet user with
  | none => (s, false, "Wallet not found", none)
  | some w =>
    let (w', ok, msg, t) := WalletManager.process_bet_placement w bet_amount
    (s.putWallet w', ok, msg, t)

/-- One call into the ledger core against a fixed wallet: a direct
`deduct` or `credit`, or a service-level `process_bet_placement` /
`process_bet_winning`. -/
inductive Op
  | deductOp (amount : Int) (description : String)
  | creditOp (amount : Int) (description : String)
  | placeBet (amount : Int)
  | winBet (amount : Int) (bet_id : Option Nat)
deriving DecidableEq, Repr

/-- The amount an operation passes into the ledger. -/
def Op.amt : Op → Int
  | .deductOp a _ => a
  | .creditOp a _ => a
  | .placeBet a => a
  | .winBet a _ => a

/-- Caller-observable effect of one call on the wallet row: a raised
`ValueError` (the `Except.error` arm of `deduct`) propagates before any
store write, so the row is unchanged on that path. -/
def Wallet.runOp (w : Wallet) : Op → Wallet
  | .deductOp a d =>
    match w.deduct a d with
    | .ok (w', _) => w'
    | .error _ => w
  | .creditOp a d => (w.credit a d).1
  | .placeBet a => (WalletManager.process_bet_placement w a).1
  | .winBet a b => (WalletManager.process_bet_winning w a b).1

/-- A sequence of calls, oldest first. -/
def Wallet.runOps (w : Wallet) (ops : List Op) : Wallet :=
  ops.foldl Wallet.runOp w

/-- Replaying a ledger entry: a CREDIT adds its amount, a DEBIT
subtracts it. -/
def signedAmount (t : Transaction) : Int :=
  match t.transaction_type with
  | .credit => t.amount
  | .debit => -t.amount

/-- Replaying the COMPLETED entries of a ledger in creation order,
starting from 0. -/
def replayCompleted (txs : List Transaction) : Int :=
  ((txs.filter fun t => t.status == .completed).map signedAmount).sum

/-- `Wallet.deduct` with a store failure injected between its two store
writes.  In `apps/wallet/models.py` the method body runs
`self.save(update_fields=['balance', 'updated_at'])` and then
`Transaction.objects.create(...)` as two separate store writes with no
enclosing atomic block inside the method; when no caller has opened one
(`WalletManager.process_bet_placement` / `process_bet_winning` open
none), each write commits on its own, so a failure after the balance
save and before the insert leaves the decremented balance persisted with
no transaction row.  `none` means the operation raised before any write
(insufficient funds). -/
def Wallet.deduct_fail_before_insert (w : Wallet) (amount : Int) : Option Wallet :=
  if ¬ w.has_sufficient_balance amount then none
  else some { w with balance := w.balance - amount }

/-- `n` calls of `process_bet_placement` for the same amount against one
wallet, in the serial order the per-row `select_for_update` lock imposes
on concurrent callers; returns the final row and the `(success, message)`
outcomes in call order. -/
def Wallet.placeBetsTrace (w : Wallet) (amount : Int) : Nat → Wallet × List (Bool × String)
  | 0 => (w, [])
  | n + 1 =>
    let r := WalletManager.process_bet_placement w amount
    let rest := Wallet.placeBetsTrace r.1 amount n
    (rest.1, (r.2.1, r.2.2.1) :: rest.2)

/-- A funded active wallet used to instantiate the universally
quantified theorems: balance 1000.00 (100000 cents), empty ledger. -/
def wDemo : Wallet :=
  { id := 1, user := 7, balance := 100000 }

/-- A wallet with balance 100.00, used to exercise the insufficient-funds
path with a 200.00 debit. -/
def wPoor : Wallet :=
  { id := 2, user := 8, balance := 10000 }

/-- A deactivated wallet. -/
def wInactive : Wallet :=
  { id := 3, user := 9, balance := 100000, is_active := false }

/-- The wallet of the spec's scenario: balance 1000.00, active. -/
def wScenario : Wallet :=
  { id := 10, user := 42, balance := 100000 }

/-- A wallet as produced by wallet creation: opening balance 1000.00 and
the matching opening CREDIT entry, so that replaying its ledger yields
its balance. -/
def wLedger : Wallet :=
  { id := 4, user := 11, balance := 100000,
    txs := [{ transaction_type := .credit, amount := 100000,
              balance_after := 100000, description := "Initial deposit",
              status := .completed }] }

/-- A wallet with balance 500.00 for the concurrent-debit count check. -/
def wRace : Wallet :=
  { id := 5, user := 12, balance := 50000 }

/-- The wallet row `create_wallet_for_user` builds on its creation path:
fresh id, opening balance, and the single opening-deposit CREDIT entry. -/
def createdWallet (s : Store) (user : Nat) (initial_balance : Int) : Wallet :=
  { id := s.next_id, user := user, balance := initial_balance,
    txs := [{ transaction_type := .credit, amount := initial_balance,
              balance_after := initial_balance,
              description := "Initial deposit", status := .completed }] }

/-- An empty store: no wallets, ids starting at 1. -/
def sEmpty : Store := {}

/-- A sample call sequence with positive amounts: a 200.00 bet, a 500.00
win tagged with bet 123, a 10.00 direct credit and a 5.00 direct debit. -/
def opsDemo : List Op :=
  [.placeBet 20000, .winBet 50000 (some 123), .creditOp 1000 "", .deductOp 500 "x"]

/-- A string with a nonempty left part is nonempty (the generated
transaction descriptions all start with a nonempty literal, so the
`description or "..."` fallback never fires on them). -/
theorem append_left_ne_empty (s t : String) (h : s ≠ "") : s ++ t ≠ "" := by
  intro he
  apply h
  obtain ⟨sd⟩ := s
  obtain ⟨td⟩ := t
  have hd : sd ++ td = ([] : List Char) := congrArg String.data he
  have hs : sd = [] := (List.append_eq_nil.mp hd).1
  subst hs
  rfl

/-- Every call either leaves the wallet row fully unchanged, or appends
exactly one COMPLETED transaction carrying the call's amount, whose
`balance_after` is the new balance and whose type matches the direction
of the balance change; `is_active` is never touched. -/
theorem runOp_shape (w : Wallet) (op : Op) :
    Wallet.runOp w op = w ∨
    ∃ t : Transaction,
      (Wallet.runOp w op).txs = w.txs ++ [t] ∧
      (Wallet.runOp w op).is_active = w.is_active ∧
      t.status = .completed ∧
      t.amount = op.amt ∧
      t.balance_after = (Wallet.runOp w op).balance ∧
      ((t.transaction_type = .debit ∧
          (Wallet.runOp w op).balance = w.balance - op.amt ∧
          op.amt ≤ w.balance) ∨
        (t.transaction_type = .credit ∧
          (Wallet.runOp w op).balance = w.balance + op.amt)) := by
  cases op with
  | deductOp a d =>
    by_cases h : w.balance < a
    · left
      simp [Wallet.runOp, Wallet.deduct, Wallet.has_sufficient_balance,
        not_le.mpr h]
    · right
      push_neg at h
      refine ⟨⟨.debit, a, w.balance - a,
        if d = "" then "Bet placed" else d, .completed⟩, ?_⟩
      simp [Wallet.runOp, Wallet.deduct, Wallet.has_sufficient_balance,
        h, Op.amt]
  | creditOp a d =>
    right
    refine ⟨⟨.credit, a, w.balance + a,
      if d = "" then "Amount credited" else d, .completed⟩, ?_⟩
    simp [Wallet.runOp, Wallet.credit, Op.amt]
  | placeBet a =>
    by_cases hact : w.is_active
    · by_cases h : w.balance < a
      · left
        simp [Wallet.runOp, WalletManager.process_bet_placement,
          Wallet.has_sufficient_balance, hact, not_le.mpr h]
      · right
        push_neg at h
        refine ⟨⟨.debit, a, w.balance - a,
          "Bet placed - " ++ toString a, .completed⟩, ?_⟩
        simp [Wallet.runOp, WalletManager.process_bet_placement,
          Wallet.deduct, Wallet.has_sufficient_balance, hact, h, Op.amt]
        intro he
        exact absurd he (append_left_ne_empty _ _ (by decide))
    · left
      simp [Wallet.runOp, WalletManager.process_bet_placement, hact]
  | winBet a b =>
    by_cases hact : w.is_active
    · right
      refine ⟨⟨.credit, a, w.balance + a, ?_, .completed⟩, ?_⟩
      · exact
          match b with
          | some i =>
            if i ≠ 0 then
              "Bet winning - " ++ toString a ++ " (Bet #" ++ toString i ++ ")"
            else
              "Bet winning - " ++ toString a
          | none => "Bet winning - " ++ toString a
      · cases b with
        | none =>
          simp [Wallet.runOp, WalletManager.process_bet_winning,
            Wallet.credit, hact, Op.amt]
          intro he
          exact absurd he (append_left_ne_empty _ _ (by decide))
        | some i =>
          by_cases hi : i = 0
          · simp [Wallet.runOp, WalletManager.process_bet_winning,
              Wallet.credit, hact, hi, Op.amt]
            intro he
            exact absurd he (append_left_ne_empty _ _ (by decide))
          · simp [Wallet.runOp, WalletManager.process_bet_winning,
              Wallet.credit, hact, hi, Op.amt]
            intro he
            exact absurd he (append_left_ne_empty _ _
              (append_left_ne_empty _ _ (append_left_ne_empty _ _
                (append_left_ne_empty _ _ (by decide)))))
    · left
      simp [Wallet.runOp, WalletManager.process_bet_winning, hact]

/-- C1: for every active wallet and every `0 < amount ≤ balance`, a
successful `Wallet.deduct` decreases the balance by exactly `amount` and
appends exactly one COMPLETED DEBIT transaction whose `balance_after` is
the post-decrement balance, returning it; for every `amount > 0`,
`Wallet.credit` increases the balance by exactly `amount` and appends
exactly one COMPLETED CREDIT transaction with `balance_after` equal to
the new balance, returning it. -/
theorem C1_deduct_credit_success :
    (∀ (w : Wallet) (a : Int) (d : String),
      w.is_active = true → 0 < a → a ≤ w.balance →
      ∃ t : Transaction,
        w.deduct a d =
          Except.ok ({ w with balance := w.balance - a, txs := w.txs ++ [t] }, t) ∧
        t.transaction_type = .debit ∧ t.status = .completed ∧
        t.amount = a ∧ t.balance_after = w.balance - a) ∧
    (∀ (w : Wallet) (a : Int) (d : String),
      0 < a →
      ∃ t : Transaction,
        w.credit a d =
          ({ w with balance := w.balance + a, txs := w.txs ++ [t] }, t) ∧
        t.transaction_type = .credit ∧ t.status = .completed ∧
        t.amount = a ∧ t.balance_after = w.balance + a) := by
  constructor
  · intro w a d _ _ h
    refine ⟨⟨.debit, a, w.balance - a,
      if d = "" then "Bet placed" else d, .completed⟩, ?_, rfl, rfl, rfl, rfl⟩
    simp [Wallet.deduct, Wallet.has_sufficient_balance, h]
  · intro w a d _
    exact ⟨⟨.credit, a, w.balance + a,
      if d = "" then "Amount credited" else d, .completed⟩, rfl, rfl, rfl, rfl, rfl⟩

/-- Witness for C1 at a concrete wallet: a 200.00 debit and a 50.00
credit on a 1000.00 balance. -/
theorem C1_deduct_credit_success_witness :
    (∃ t : Transaction,
      wDemo.deduct 20000 "bet" =
        Except.ok ({ wDemo with
          balance := wDemo.balance - 20000,
          txs := wDemo.txs ++ [t] }, t) ∧
      t.transaction_type = .debit ∧ t.status = .completed ∧
      t.amount = 20000 ∧ t.balance_after = wDemo.balance - 20000) ∧
    (∃ t : Transaction,
      wDemo.credit 5000 "dep" =
        ({ wDemo with
          balance := wDemo.balance + 5000,
          txs := wDemo.txs ++ [t] }, t) ∧
      t.transaction_type = .credit ∧ t.status = .completed ∧
      t.amount = 5000 ∧ t.balance_after = wDemo.balance + 5000) :=
  ⟨C1_deduct_credit_success.1 wDemo 20000 "bet" rfl (by decide) (by decide),
   C1_deduct_credit_success.2 wDemo 5000 "dep" (by decide)⟩

/-- C2: `Wallet.deduct` fails (raises the insufficient-balance
`ValueError`) exactly when `balance < amount`, and on that path the
caller-observable wallet row — balance and transaction rows alike — is
exactly as before the call. -/
theorem C2_deduct_insufficient (w : Wallet) (a : Int) (d : String) :
    ((∃ e, w.deduct a d = .error e) ↔ w.balance < a) ∧
    (w.balance < a →
      w.deduct a d = .error ("Insufficient balance. Available: " ++
        toString w.balance ++ ", Required: " ++ toString a) ∧
      Wallet.runOp w (.deductOp a d) = w) := by
  constructor
  · constructor
    · rintro ⟨e, he⟩
      by_contra hc
      push_neg at hc
      simp [Wallet.deduct, Wallet.has_sufficient_balance, hc] at he
    · intro h
      exact ⟨"Insufficient balance. Available: " ++ toString w.balance ++
          ", Required: " ++ toString a,
        by simp [Wallet.deduct, Wallet.has_sufficient_balance, not_le.mpr h]⟩
  · intro h
    refine ⟨?_, ?_⟩ <;>
      simp [Wallet.deduct, Wallet.runOp, Wallet.has_sufficient_balance, not_le.mpr h]

/-- Witness for C2: a 200.00 debit against a 100.00 balance fails with
the insufficient-balance error and leaves the row unchanged. -/
theorem C2_deduct_insufficient_witness :
    wPoor.deduct 20000 "" = .error ("Insufficient balance. Available: " ++
      toString wPoor.balance ++ ", Required: " ++ toString (20000 : Int)) ∧
    Wallet.runOp wPoor (.deductOp 20000 "") = wPoor :=
  (C2_deduct_insufficient wPoor 20000 "").2 (by decide)

/-- C9: neither `credit` nor `deduct` validates positivity of `amount`:
`credit` always succeeds and moves the balance by `+amount` (below zero
when `amount` is negative enough), `deduct` succeeds whenever
`balance ≥ amount` — so a negative amount passes the sufficiency check
and strictly increases the balance — and `process_bet_winning` reports
success for every amount on an active wallet. -/
theorem C9_no_positivity_validation :
    (∀ (w : Wallet) (a : Int) (d : String),
      (w.credit a d).1.balance = w.balance + a ∧
      (w.credit a d).1.txs = w.txs ++ [(w.credit a d).2]) ∧
    (∀ (w : Wallet) (a : Int) (d : String), a ≤ w.balance →
      ∃ w' t, w.deduct a d = .ok (w', t) ∧ w'.balance = w.balance - a) ∧
    (∀ (w : Wallet) (a : Int) (d : String), a < 0 → 0 ≤ w.balance →
      ∃ w' t, w.deduct a d = .ok (w', t) ∧ w.balance < w'.balance) ∧
    ((Wallet.credit { id := 6, user := 13, balance := 0 } (-10000) "").1.balance < 0) ∧
    (∀ (w : Wallet) (a : Int) (b : Option Nat), w.is_active = true →
      (WalletManager.process_bet_winning w a b).2.1 = true) := by
  refine ⟨?_, ?_, ?_, ?_, ?_⟩
  · intro w a d
    exact ⟨rfl, rfl⟩
  · intro w a d h
    refine ⟨{ w with
        balance := w.balance - a,
        txs := w.txs ++ [⟨.debit, a, w.balance - a,
          if d = "" then "Bet placed" else d, .completed⟩] },
      ⟨.debit, a, w.balance - a,
        if d = "" then "Bet placed" else d, .completed⟩, ?_, rfl⟩
    simp [Wallet.deduct, Wallet.has_sufficient_balance, h]
  · intro w a d ha hb
    have h : a ≤ w.balance := le_trans (le_of_lt ha) hb
    refine ⟨{ w with
        balance := w.balance - a,
        txs := w.txs ++ [⟨.debit, a, w.balance - a,
          if d = "" then "Bet placed" else d, .completed⟩] },
      ⟨.debit, a, w.balance - a,
        if d = "" then "Bet placed" else d, .completed⟩, ?_, ?_⟩
    · simp [Wallet.deduct, Wallet.has_sufficient_balance, h]
    · show w.balance < w.balance - a
      omega
  · decide
  · intro w a b h
    simp [WalletManager.process_bet_winning, Wallet.credit, h]

/-- Witness for C9: a negative deduct strictly increases a 1000.00
balance, a winnings credit of a negative amount still reports success,
and a 50.00 deduct from a 100.00 balance succeeds. -/
theorem C9_no_positivity_validation_witness :
    (∃ w' t, wDemo.deduct (-5000) "" = .ok (w', t) ∧ wDemo.balance < w'.balance) ∧
    (WalletManager.process_bet_winning wDemo (-5000) none).2.1 = true ∧
    (∃ w' t, wPoor.deduct 5000 "" = .ok (w', t) ∧ w'.balance = wPoor.balance - 5000) :=
  ⟨C9_no_positivity_validation.2.2.1 wDemo (-5000) "" (by decide) (by decide),
   C9_no_positivity_validation.2.2.2.2 wDemo (-5000) none rfl,
   C9_no_positivity_validation.2.1 wPoor 5000 "" (by decide)⟩

/-- C4 is refuted by the code: `deduct` issues the balance save and the
transaction insert as two separate store writes with no atomic block in
the method (and the `WalletManager` bet paths open none), so a failure
injected between them persists the decremented balance with no new
ledger row.  Evaluated at the failing input — balance 1000.00,
`deduct(200.00)`, failure after the save and before the insert — the
surviving state has balance 800.00 and an unchanged (empty) row list:
it differs from the fully-before state and from the fully-after state,
which carries exactly one new DEBIT row. -/
theorem C4_interrupted_deduct_mixed_state :
    Wallet.deduct_fail_before_insert wDemo 20000 =
      some { wDemo with balance := 80000 } ∧
    (80000 : Int) ≠ wDemo.balance ∧
    ({ wDemo with balance := 80000 } : Wallet).txs = wDemo.txs ∧
    wDemo.deduct 20000 "" =
      .ok ({ wDemo with
        balance := 80000,
        txs := [⟨.debit, 20000, 80000, "Bet placed", .completed⟩] },
        ⟨.debit, 20000, 80000, "Bet placed", .completed⟩) ∧
    ([⟨.debit, 20000, 80000, "Bet placed", .completed⟩] : List Transaction) ≠ [] := by
  refine ⟨by decide, by decide, by decide, ?_, by decide⟩
  rfl

/-- C7: the spec scenario.  On the 1000.00 wallet,
`process_bet_placement(200.00)` succeeds, leaves balance 800.00 and
appends one DEBIT row with `balance_after = 800.00`; the follow-up
`process_bet_placement(900.00)` fails with a message starting with
"Insufficient balance", returns no transaction and leaves the row
exactly as it was; and on any inactive wallet `process_bet_placement`
fails without mutating anything. -/
theorem C7_scenario :
    ((WalletManager.process_bet_placement wScenario 20000).2.1 = true ∧
     (WalletManager.process_bet_placement wScenario 20000).1.balance = 80000 ∧
     (∃ t, (WalletManager.process_bet_placement wScenario 20000).2.2.2 = some t ∧
       t.transaction_type = .debit ∧ t.balance_after = 80000 ∧
       (WalletManager.process_bet_placement wScenario 20000).1.txs =
         wScenario.txs ++ [t]) ∧
     (WalletManager.process_bet_placement
        (WalletManager.process_bet_placement wScenario 20000).1 90000).2.1 = false ∧
     (WalletManager.process_bet_placement
        (WalletManager.process_bet_placement wScenario 20000).1 90000).2.2.2 = none ∧
     "Insufficient balance".data.isPrefixOf
       (WalletManager.process_bet_placement
         (WalletManager.process_bet_placement wScenario 20000).1 90000).2.2.1.data = true ∧
     (WalletManager.process_bet_placement
        (WalletManager.process_bet_placement wScenario 20000).1 90000).1 =
       (WalletManager.process_bet_placement wScenario 20000).1) ∧
    (∀ (w : Wallet) (a : Int), w.is_active = false →
      WalletManager.process_bet_placement w a =
        (w, false, "Wallet is not active", none)) := by
  constructor
  · refine ⟨by decide, by decide,
      ⟨⟨.debit, 20000, 80000, "Bet placed - " ++ toString (20000 : Int), .completed⟩,
        by decide, rfl, rfl, by decide⟩,
      by decide, by decide, by decide, by decide⟩
  · intro w a h
    simp [WalletManager.process_bet_placement, h]

/-- Witness for C7 at a concrete inactive wallet. -/
theorem C7_scenario_witness :
    WalletManager.process_bet_placement wInactive 5000 =
      (wInactive, false, "Wallet is not active", none) :=
  C7_scenario.2 wInactive 5000 rfl

/-- Appending one element to a list `find?` missed: the search now hits
exactly when the new element matches. -/
theorem find?_append_singleton {α : Type} (l : List α) (p : α → Bool) (x : α)
    (h : l.find? p = none) :
    (l ++ [x]).find? p = if p x then some x else none := by
  induction l with
  | nil => cases hx : p x <;> simp [List.find?, hx]
  | cons y ys ih =>
    rw [List.find?_eq_none] at h
    have hy : ¬ p y := h y (List.mem_cons_self y ys)
    have hys : ys.find? p = none :=
      List.find?_eq_none.mpr fun z hz => h z (List.mem_cons_of_mem _ hz)
    simpa [List.cons_append, List.find?_cons_of_neg _ hy] using ih hys

/-- C6: `create_wallet_for_user` is idempotent.  For a user with no
wallet, the first call creates the wallet with `balance =
initial_balance`, reports `created = true` and records exactly one
opening CREDIT transaction of that amount; the second call returns the
very same wallet row (same id) with `created = false`, leaves the store
untouched, and exactly one opening-deposit entry exists. -/
theorem C6_create_wallet_idempotent (s : Store) (user : Nat) (ib : Int)
    (h : s.getWallet user = none) :
    (WalletManager.create_wallet_for_user s user ib).2.2 = true ∧
    (WalletManager.create_wallet_for_user s user ib).2.1.balance = ib ∧
    (WalletManager.create_wallet_for_user s user ib).2.1.txs =
      [⟨.credit, ib, ib, "Initial deposit", .completed⟩] ∧
    (WalletManager.create_wallet_for_user
      (WalletManager.create_wallet_for_user s user ib).1 user ib).2.2 = false ∧
    (WalletManager.create_wallet_for_user
      (WalletManager.create_wallet_for_user s user ib).1 user ib).2.1 =
      (WalletManager.create_wallet_for_user s user ib).2.1 ∧
    (WalletManager.create_wallet_for_user
      (WalletManager.create_wallet_for_user s user ib).1 user ib).1 =
      (WalletManager.create_wallet_for_user s user ib).1 ∧
    ((WalletManager.create_wallet_for_user
        (WalletManager.create_wallet_for_user s user ib).1 user ib).2.1.txs.filter
      fun t => t.description == "Initial deposit").length = 1 := by
  have hfd : s.wallets.find? (fun w => w.user == user) = none := h
  have e1 : WalletManager.create_wallet_for_user s user ib =
      ({ s with
        wallets := s.wallets ++ [createdWallet s user ib],
        next_id := s.next_id + 1 }, createdWallet s user ib, true) := by
    simp [WalletManager.create_wallet_for_user, Store.getWallet, hfd, createdWallet]
  have h2 : ({ s with
      wallets := s.wallets ++ [createdWallet s user ib],
      next_id := s.next_id + 1 } : Store).getWallet user =
      some (createdWallet s user ib) := by
    simp [Store.getWallet, find?_append_singleton _ _ _ hfd, createdWallet]
  have e2 : WalletManager.create_wallet_for_user
      ({ s with
        wallets := s.wallets ++ [createdWallet s user ib],
        next_id := s.next_id + 1 }) user ib =
      ({ s with
        wallets := s.wallets ++ [createdWallet s user ib],
        next_id := s.next_id + 1 }, createdWallet s user ib, false) := by
    simp [WalletManager.create_wallet_for_user, h2]
  simp only [e1, e2]
  simp [createdWallet]

/-- Witness for C6: creating twice for user 5 in the empty store. -/
theorem C6_create_wallet_idempotent_witness :
    (WalletManager.create_wallet_for_user sEmpty 5 100000).2.2 = true ∧
    (WalletManager.create_wallet_for_user sEmpty 5 100000).2.1.balance = 100000 ∧
    (WalletManager.create_wallet_for_user sEmpty 5 100000).2.1.txs =
      [⟨.credit, 100000, 100000, "Initial deposit", .completed⟩] ∧
    (WalletManager.create_wallet_for_user
      (WalletManager.create_wallet_for_user sEmpty 5 100000).1 5 100000).2.2 = false ∧
    (WalletManager.create_wallet_for_user
      (WalletManager.create_wallet_for_user sEmpty 5 100000).1 5 100000).2.1 =
      (WalletManager.create_wallet_for_user sEmpty 5 100000).2.1 ∧
    (WalletManager.create_wallet_for_user
      (WalletManager.create_wallet_for_user sEmpty 5 100000).1 5 100000).1 =
      (WalletManager.create_wallet_for_user sEmpty 5 100000).1 ∧
    ((WalletManager.create_wallet_for_user
        (WalletManager.create_wallet_for_user sEmpty 5 100000).1 5 100000).2.1.txs.filter
      fun t => t.description == "Initial deposit").length = 1 :=
  C6_create_wallet_idempotent sEmpty 5 100000 rfl

/-- Appending a COMPLETED entry extends the replay by its signed
amount. -/
theorem replayCompleted_append_completed (txs : List Transaction) (t : Transaction)
    (h : t.status = .completed) :
    replayCompleted (txs ++ [t]) = replayCompleted txs + signedAmount t := by
  simp [replayCompleted, List.filter_append, h]

/-- One call preserves the ledger invariant (non-negative balance and
replay-consistency), given the call's amount is positive. -/
theorem ledgerInv_runOp (w : Wallet) (op : Op) (hamt : 0 < op.amt)
    (hbal : 0 ≤ w.balance) (hrep : replayCompleted w.txs = w.balance) :
    0 ≤ (w.runOp op).balance ∧
    replayCompleted (w.runOp op).txs = (w.runOp op).balance := by
  rcases runOp_shape w op with hsame | ⟨t, htxs, _, hst, hamt', hba, hdir⟩
  · rw [hsame]
    exact ⟨hbal, hrep⟩
  · rw [htxs, replayCompleted_append_completed _ _ hst, hrep]
    rcases hdir with ⟨hty, hbal', hle⟩ | ⟨hty, hbal'⟩
    · rw [hbal']
      constructor
      · omega
      · simp [signedAmount, hty, hamt']
        omega
    · rw [hbal']
      constructor
      · omega
      · simp [signedAmount, hty, hamt']

/-- The ledger invariant survives any sequence of positive-amount
calls. -/
theorem ledgerInv_runOps : ∀ (ops : List Op) (w : Wallet),
    (∀ op ∈ ops, 0 < op.amt) →
    0 ≤ w.balance → replayCompleted w.txs = w.balance →
    0 ≤ (w.runOps ops).balance ∧
    replayCompleted (w.runOps ops).txs = (w.runOps ops).balance := by
  intro ops
  induction ops with
  | nil => exact fun w _ hbal hrep => ⟨hbal, hrep⟩
  | cons op rest ih =>
    intro w hpos hbal hrep
    have h1 := ledgerInv_runOp w op (hpos op (by simp)) hbal hrep
    exact ih (w.runOp op) (fun o ho => hpos o (List.mem_cons_of_mem _ ho)) h1.1 h1.2

/-- C3: starting from any replay-consistent non-negative state, every
sequence of positive-amount calls keeps the balance non-negative and
keeps the COMPLETED-replay equal to the balance; each single call either
changes nothing or appends exactly one COMPLETED transaction whose
`balance_after` is the new balance; and the wallet `create_wallet_for_user`
builds satisfies the same invariant from the start. -/
theorem C3_ledger_invariant (w : Wallet) (ops : List Op)
    (hbal : 0 ≤ w.balance) (hrep : replayCompleted w.txs = w.balance)
    (hpos : ∀ op ∈ ops, 0 < op.amt) :
    (0 ≤ (w.runOps ops).balance ∧
      replayCompleted (w.runOps ops).txs = (w.runOps ops).balance) ∧
    (∀ (w' : Wallet) (op : Op),
      Wallet.runOp w' op = w' ∨
      ∃ t, (Wallet.runOp w' op).txs = w'.txs ++ [t] ∧
        t.status = .completed ∧
        t.balance_after = (Wallet.runOp w' op).balance) ∧
    (∀ (s : Store) (u : Nat) (ib : Int), 0 ≤ ib → s.getWallet u = none →
      0 ≤ (WalletManager.create_wallet_for_user s u ib).2.1.balance ∧
      replayCompleted (WalletManager.create_wallet_for_user s u ib).2.1.txs =
        (WalletManager.create_wallet_for_user s u ib).2.1.balance) := by
  refine ⟨ledgerInv_runOps ops w hpos hbal hrep, ?_, ?_⟩
  · intro w' op
    rcases runOp_shape w' op with hs | ⟨t, h1, _, h3, _, h5, _⟩
    · exact Or.inl hs
    · exact Or.inr ⟨t, h1, h3, h5⟩
  · intro s u ib hib hnone
    have hfd : s.wallets.find? (fun w => w.user == u) = none := hnone
    constructor
    · simpa [WalletManager.create_wallet_for_user, Store.getWallet, hfd] using hib
    · simp [WalletManager.create_wallet_for_user, Store.getWallet, hfd,
        replayCompleted, signedAmount]

/-- Witness for C3: the created-style wallet `wLedger` run through the
positive sample sequence. -/
theorem C3_ledger_invariant_witness :
    (0 ≤ (wLedger.runOps opsDemo).balance ∧
      replayCompleted (wLedger.runOps opsDemo).txs = (wLedger.runOps opsDemo).balance) ∧
    (∀ (w' : Wallet) (op : Op),
      Wallet.runOp w' op = w' ∨
      ∃ t, (Wallet.runOp w' op).txs = w'.txs ++ [t] ∧
        t.status = .completed ∧
        t.balance_after = (Wallet.runOp w' op).balance) ∧
    (∀ (s : Store) (u : Nat) (ib : Int), 0 ≤ ib → s.getWallet u = none →
      0 ≤ (WalletManager.create_wallet_for_user s u ib).2.1.balance ∧
      replayCompleted (WalletManager.create_wallet_for_user s u ib).2.1.txs =
        (WalletManager.create_wallet_for_user s u ib).2.1.balance) :=
  C3_ledger_invariant wLedger opsDemo (by decide) (by decide) (by decide)

/-- Positive-amount calls only ever append positive-amount entries. -/
theorem txs_positive_runOps : ∀ (ops : List Op) (w : Wallet),
    (∀ t ∈ w.txs, 0 < t.amount) → (∀ op ∈ ops, 0 < op.amt) →
    ∀ t ∈ (w.runOps ops).txs, 0 < t.amount := by
  intro ops
  induction ops with
  | nil => exact fun w h0 _ => h0
  | cons op rest ih =>
    intro w h0 hpos
    have hstep : ∀ t ∈ (w.runOp op).txs, 0 < t.amount := by
      rcases runOp_shape w op with hs | ⟨t, h1, _, _, hamt, _, _⟩
      · rw [hs]
        exact h0
      · rw [h1]
        intro u hu
        rcases List.mem_append.mp hu with hm | hm
        · exact h0 u hm
        · rw [List.mem_singleton.mp hm, hamt]
          exact hpos op (by simp)
    exact ih (w.runOp op) hstep (fun o ho => hpos o (List.mem_cons_of_mem _ ho))

/-- All calls only ever append COMPLETED entries. -/
theorem txs_completed_runOps : ∀ (ops : List Op) (w : Wallet),
    (∀ t ∈ w.txs, t.status = .completed) →
    ∀ t ∈ (w.runOps ops).txs, t.status = .completed := by
  intro ops
  induction ops with
  | nil => exact fun w h0 => h0
  | cons op rest ih =>
    intro w h0
    have hstep : ∀ t ∈ (w.runOp op).txs, t.status = .completed := by
      rcases runOp_shape w op with hs | ⟨t, h1, _, hst, _, _, _⟩
      · rw [hs]
        exact h0
      · rw [h1]
        intro u hu
        rcases List.mem_append.mp hu with hm | hm
        · exact h0 u hm
        · rw [List.mem_singleton.mp hm]
          exact hst
    exact ih (w.runOp op) hstep

/-- C5: on a wallet created with a positive opening balance and mutated
only through the core with positive amounts, every ledger row carries a
strictly positive `amount`; and the direction of a mutation is carried
by the appended row's type alone — a DEBIT row means the balance
dropped by the row's amount, a CREDIT row that it rose by it. -/
theorem C5_transaction_amounts_positive (s : Store) (user : Nat) (ib : Int)
    (ops : List Op)
    (hs : s.getWallet user = none) (hib : 0 < ib)
    (hpos : ∀ op ∈ ops, 0 < op.amt) :
    (∀ t ∈ (Wallet.runOps (WalletManager.create_wallet_for_user s user ib).2.1 ops).txs,
      0 < t.amount) ∧
    (∀ (w' : Wallet) (op : Op) (t : Transaction),
      (Wallet.runOp w' op).txs = w'.txs ++ [t] →
      (t.transaction_type = .debit →
        (Wallet.runOp w' op).balance = w'.balance - t.amount) ∧
      (t.transaction_type = .credit →
        (Wallet.runOp w' op).balance = w'.balance + t.amount)) := by
  constructor
  · apply txs_positive_runOps ops _ ?_ hpos
    have hfd : s.wallets.find? (fun w => w.user == user) = none := hs
    intro t ht
    simp [WalletManager.create_wallet_for_user, Store.getWallet, hfd] at ht
    rw [ht]
    exact hib
  · intro w' op t htxs
    rcases runOp_shape w' op with hsame | ⟨t', h1, _, _, hamt, _, hdir⟩
    · rw [hsame] at htxs
      exact absurd htxs.symm (by simp)
    · have ht' : t' = t := by
        have h2 : w'.txs ++ [t'] = w'.txs ++ [t] := h1 ▸ htxs
        simpa using List.append_cancel_left h2
      subst ht'
      rcases hdir with ⟨hty, hbal', _⟩ | ⟨hty, hbal'⟩
      · refine ⟨fun _ => by rw [hbal', hamt], fun hc => ?_⟩
        rw [hty] at hc
        cases hc
      · refine ⟨fun hc => ?_, fun _ => by rw [hbal', hamt]⟩
        rw [hty] at hc
        cases hc

/-- Witness for C5: the empty store, user 5, opening balance 1000.00 and
the positive sample sequence. -/
theorem C5_transaction_amounts_positive_witness :
    (∀ t ∈ (Wallet.runOps
        (WalletManager.create_wallet_for_user sEmpty 5 100000).2.1 opsDemo).txs,
      0 < t.amount) ∧
    (∀ (w' : Wallet) (op : Op) (t : Transaction),
      (Wallet.runOp w' op).txs = w'.txs ++ [t] →
      (t.transaction_type = .debit →
        (Wallet.runOp w' op).balance = w'.balance - t.amount) ∧
      (t.transaction_type = .credit →
        (Wallet.runOp w' op).balance = w'.balance + t.amount)) :=
  C5_transaction_amounts_positive sEmpty 5 100000 opsDemo rfl (by decide) (by decide)

/-- C10: every row produced by the core carries the default COMPLETED
status, so on a wallet created by `create_wallet_for_user` and mutated
only through the core, the COMPLETED-filtered aggregates equal the
unfiltered per-type sums. -/
theorem C10_completed_aggregates (s : Store) (user : Nat) (ib : Int)
    (ops : List Op)
    (hs : s.getWallet user = none) :
    (∀ t ∈ (Wallet.runOps (WalletManager.create_wallet_for_user s user ib).2.1 ops).txs,
      t.status = .completed) ∧
    (Wallet.runOps (WalletManager.create_wallet_for_user s user ib).2.1 ops).get_total_deposited =
      (((Wallet.runOps (WalletManager.create_wallet_for_user s user ib).2.1 ops).txs.filter
        fun t => t.transaction_type == .credit).map Transaction.amount).sum ∧
    (Wallet.runOps (WalletManager.create_wallet_for_user s user ib).2.1 ops).get_total_withdrawn =
      (((Wallet.runOps (WalletManager.create_wallet_for_user s user ib).2.1 ops).txs.filter
        fun t => t.transaction_type == .debit).map Transaction.amount).sum := by
  have hfd : s.wallets.find? (fun w => w.user == user) = none := hs
  have hall : ∀ t ∈ (Wallet.runOps
      (WalletManager.create_wallet_for_user s user ib).2.1 ops).txs,
      t.status = .completed := by
    apply txs_completed_runOps
    intro t ht
    simp [WalletManager.create_wallet_for_user, Store.getWallet, hfd] at ht
    rw [ht]
  have hfil : ∀ (c : TransactionType) (l : List Transaction),
      (∀ t ∈ l, t.status = .completed) →
      (l.filter fun t => t.transaction_type == c && t.status == .completed) =
        (l.filter fun t => t.transaction_type == c) := by
    intro c l hl
    apply List.filter_congr
    intro t ht
    simp [hl t ht]
  exact ⟨hall,
    by rw [Wallet.get_total_deposited, hfil _ _ hall],
    by rw [Wallet.get_total_withdrawn, hfil _ _ hall]⟩

/-- Witness for C10 at the empty store, user 5, opening 1000.00 and the
sample sequence. -/
theorem C10_completed_aggregates_witness :
    (∀ t ∈ (Wallet.runOps
        (WalletManager.create_wallet_for_user sEmpty 5 100000).2.1 opsDemo).txs,
      t.status = .completed) ∧
    (Wallet.runOps (WalletManager.create_wallet_for_user sEmpty 5 100000).2.1 opsDemo).get_total_deposited =
      (((Wallet.runOps (WalletManager.create_wallet_for_user sEmpty 5 100000).2.1 opsDemo).txs.filter
        fun t => t.transaction_type == .credit).map Transaction.amount).sum ∧
    (Wallet.runOps (WalletManager.create_wallet_for_user sEmpty 5 100000).2.1 opsDemo).get_total_withdrawn =
      (((Wallet.runOps (WalletManager.create_wallet_for_user sEmpty 5 100000).2.1 opsDemo).txs.filter
        fun t => t.transaction_type == .debit).map Transaction.amount).sum :=
  C10_completed_aggregates sEmpty 5 100000 opsDemo rfl

/-- A sufficiently funded active wallet: one `process_bet_placement`
call succeeds, debits the amount and appends the DEBIT row. -/
theorem placeBet_success_step (w : Wallet) (A : Int)
    (hact : w.is_active = true) (h : A ≤ w.balance) :
    WalletManager.process_bet_placement w A =
      ({ w with
        balance := w.balance - A,
        txs := w.txs ++ [⟨.debit, A, w.balance - A,
          "Bet placed - " ++ toString A, .completed⟩] },
       true, "Bet placed successfully",
       some ⟨.debit, A, w.balance - A, "Bet placed - " ++ toString A, .completed⟩) := by
  simp [WalletManager.process_bet_placement, Wallet.deduct,
    Wallet.has_sufficient_balance, hact, h]
  intro he
  exact absurd he (append_left_ne_empty _ _ (by decide))

/-- An underfunded active wallet: every further call fails with the
insufficient-balance message and changes nothing. -/
theorem placeBets_insufficient : ∀ (n : Nat) (w : Wallet) (A : Int),
    w.is_active = true → w.balance < A →
    Wallet.placeBetsTrace w A n =
      (w, List.replicate n
        (false, "Insufficient balance. Available: " ++ toString w.balance)) := by
  intro n
  induction n with
  | zero => exact fun w A _ _ => rfl
  | succ m ih =>
    intro w A hact hlt
    have hfail : WalletManager.process_bet_placement w A =
        (w, false, "Insufficient balance. Available: " ++ toString w.balance,
          none) := by
      simp [WalletManager.process_bet_placement, Wallet.has_sufficient_balance,
        hact, not_le.mpr hlt]
    simp [Wallet.placeBetsTrace, hfail, ih w A hact hlt, List.replicate_succ]

/-- Peeling one divisor from a division with a large enough dividend. -/
theorem ediv_succ_of_le {b A : Int} (hA : 0 < A) :
    b / A = (b - A) / A + 1 := by
  have h1 : (b - A + 1 * A) / A = (b - A) / A + 1 :=
    Int.add_mul_ediv_right _ _ (ne_of_gt hA)
  rw [one_mul, sub_add_cancel] at h1
  exact h1

/-- The failure message starts with "Insufficient balance" whatever the
rendered balance is. -/
theorem insufficient_msg_prefix (s : String) :
    "Insufficient balance".data.isPrefixOf
      ("Insufficient balance. Available: " ++ s).data = true := by
  obtain ⟨l⟩ := s
  refine List.isPrefixOf_iff_prefix.mpr ?_
  exact List.IsPrefix.trans (by decide) (List.prefix_append _ _)

/-- Counting lemma: `N` serialized same-amount bets against balance `b`
with `N·A > b` give exactly `⌊b/A⌋` successes, `N − ⌊b/A⌋` failures all
carrying the insufficient-balance message, and final balance
`b − ⌊b/A⌋·A`. -/
theorem placeBets_count : ∀ (N : Nat) (w : Wallet) (A : Int),
    w.is_active = true → 0 < A → 0 ≤ w.balance → w.balance < (N : Int) * A →
    ((Wallet.placeBetsTrace w A N).2.filter fun p => p.1).length =
      (w.balance / A).toNat ∧
    ((Wallet.placeBetsTrace w A N).2.filter fun p => !p.1).length =
      N - (w.balance / A).toNat ∧
    (∀ p ∈ (Wallet.placeBetsTrace w A N).2, p.1 = false →
      "Insufficient balance".data.isPrefixOf p.2.data = true) ∧
    (Wallet.placeBetsTrace w A N).1.balance = w.balance - w.balance / A * A ∧
    (Wallet.placeBetsTrace w A N).2.length = N := by
  intro N
  induction N with
  | zero =>
    intro w A hact hA hB hover
    rw [Nat.cast_zero, zero_mul] at hover
    exact absurd hover (not_lt.mpr hB)
  | succ m ih =>
    intro w A hact hA hB hover
    by_cases hle : A ≤ w.balance
    · have hstep := placeBet_success_step w A hact hle
      have hdiv : w.balance / A = (w.balance - A) / A + 1 := ediv_succ_of_le hA
      have hq0 : 0 ≤ (w.balance - A) / A :=
        Int.ediv_nonneg (by linarith) (le_of_lt hA)
      have htn : (w.balance / A).toNat = ((w.balance - A) / A).toNat + 1 := by
        rw [hdiv, Int.toNat_add hq0 (by norm_num)]
        rfl
      set w1 : Wallet := { w with
        balance := w.balance - A,
        txs := w.txs ++ [⟨.debit, A, w.balance - A,
          "Bet placed - " ++ toString A, .completed⟩] } with hw1
      have hb1 : w1.balance = w.balance - A := by rw [hw1]
      have hover' : w1.balance < (m : Int) * A := by
        have hcast : ((m + 1 : Nat) : Int) = (m : Int) + 1 := by push_cast; ring
        rw [hcast, add_mul, one_mul] at hover
        rw [hb1]
        linarith
      have hrec := ih w1 A hact hA (by rw [hb1]; linarith) hover'
      have hunfold : Wallet.placeBetsTrace w A (m + 1) =
          ((Wallet.placeBetsTrace w1 A m).1,
            (true, "Bet placed successfully") :: (Wallet.placeBetsTrace w1 A m).2) := by
        simp [Wallet.placeBetsTrace, hstep]
      rw [hunfold]
      refine ⟨?_, ?_, ?_, ?_, ?_⟩
      · simp only [List.filter_cons]
        rw [htn]
        simp [hrec.1, hb1]
      · simp only [List.filter_cons]
        rw [htn]
        have h2 := hrec.2.1
        rw [hb1] at h2
        simp [h2]
      · intro p hp hfalse
        rcases List.mem_cons.mp hp with hh | hh
        · rw [hh] at hfalse
          cases hfalse
        · exact hrec.2.2.1 p hh hfalse
      · have h4 := hrec.2.2.2.1
        rw [hb1] at h4
        rw [h4, hdiv]
        ring
      · simp [hrec.2.2.2.2]
    · push_neg at hle
      have hall := placeBets_insufficient (m + 1) w A hact hle
      have hdiv0 : w.balance / A = 0 := Int.ediv_eq_zero_of_lt hB hle
      rw [hall]
      refine ⟨by simp [hdiv0], by simp [hdiv0], ?_, by simp [hdiv0], by simp⟩
      intro p hp _
      rw [(List.mem_replicate.mp hp).2]
      exact insufficient_msg_prefix (toString w.balance)

/-- C8: under the per-wallet exclusive row lock, `N` concurrent
same-amount debit attempts execute as `N` serialized
`process_bet_placement` calls; with balance `B`, amount `A > 0` and
`N·A > B`, exactly `⌊B/A⌋` of them succeed, every other one fails with
a message starting with "Insufficient balance", and the final balance
is `B − ⌊B/A⌋·A`. -/
theorem C8_concurrent_debits (w : Wallet) (A : Int) (N : Nat)
    (hact : w.is_active = true) (hA : 0 < A) (hB : 0 ≤ w.balance)
    (hover : w.balance < (N : Int) * A) :
    ((Wallet.placeBetsTrace w A N).2.filter fun p => p.1).length =
      (w.balance / A).toNat ∧
    ((Wallet.placeBetsTrace w A N).2.filter fun p => !p.1).length =
      N - (w.balance / A).toNat ∧
    (∀ p ∈ (Wallet.placeBetsTrace w A N).2, p.1 = false →
      "Insufficient balance".data.isPrefixOf p.2.data = true) ∧
    (Wallet.placeBetsTrace w A N).1.balance = w.balance - w.balance / A * A :=
  ⟨(placeBets_count N w A hact hA hB hover).1,
   (placeBets_count N w A hact hA hB hover).2.1,
   (placeBets_count N w A hact hA hB hover).2.2.1,
   (placeBets_count N w A hact hA hB hover).2.2.2.1⟩

/-- Witness for C8: three 200.00 debits against a 500.00 balance — two
succeed, one fails, final balance 100.00. -/
theorem C8_concurrent_debits_witness :
    ((Wallet.placeBetsTrace wRace 20000 3).2.filter fun p => p.1).length =
      (wRace.balance / 20000).toNat ∧
    ((Wallet.placeBetsTrace wRace 20000 3).2.filter fun p => !p.1).length =
      3 - (wRace.balance / 20000).toNat ∧
    (∀ p ∈ (Wallet.placeBetsTrace wRace 20000 3).2, p.1 = false →
      "Insufficient balance".data.isPrefixOf p.2.data = true) ∧
    (Wallet.placeBetsTrace wRace 20000 3).1.balance =
      wRace.balance - wRace.balance / 20000 * 20000 :=
  C8_concurrent_debits wRace 20000 3 rfl (by decide) (by decide) (by decide)

end VBet
